import Mathlib

/-!
# Verification of the Pokémon record-store service (`src/index.js`)

Shallow embedding of the Express CRUD handlers of `src/index.js` over an
explicit JSON value type.  JavaScript numbers are modelled as integers plus a
distinguished `nan` value: every numeric literal reachable through the service
(record ids, base stats, page numbers) is an integer, and `NaN` is the one
non-integer number the code can produce (via `Math.max` coercion of a
non-numeric id).  Exotic `ToNumber` coercions (fractional numerals, arrays,
objects) are modelled as `NaN`; they are unreachable in the theorems below.
Fallible JavaScript evaluation (a thrown `TypeError`) is modelled with
`Except Unit`.  The backing file is modelled by the JSON value it parses to;
`writeFileSync(JSON.stringify(store))` stores `persistList store`, where
`persistVal` is the identity except that it sends `NaN` to `null`, exactly as
`JSON.stringify`/`JSON.parse` do.
-/

set_option autoImplicit false

namespace PokemonApi

/-- JSON/JS values, with numbers as integers plus `nan` (see module docstring). -/
inductive Json where
  | null : Json
  | nan : Json
  | bool : Bool → Json
  | int : Int → Json
  | str : String → Json
  | arr : List Json → Json
  | obj : List (String × Json) → Json

/-- First-match lookup in an object's field list (JS objects have unique keys). -/
def jlookup : List (String × Json) → String → Option Json
  | [], _ => none
  | (k, v) :: fs, key => if k = key then some v else jlookup fs key

/-- JS property access `j[key]`: `some v` when present, `none` for `undefined`. -/
def Json.getField : Json → String → Option Json
  | .obj fs, key => jlookup fs key
  | _, _ => none

/-- JS truthiness of a value (`undefined` is handled at the call sites as `none`). -/
def Json.truthy : Json → Bool
  | .null => false
  | .nan => false
  | .bool b => b
  | .int n => n != 0
  | .str s => s ≠ ""
  | .arr _ => true
  | .obj _ => true

/-- `!body[key]` in JS: the key is present with a truthy value. -/
def hasTruthy (body : Json) (key : String) : Bool :=
  match body.getField key with
  | some v => v.truthy
  | none => false

/-- JS property write on an object's field list: overwrite the first occurrence
in place, otherwise append the new key at the end (JS key-insertion order). -/
def setKey : List (String × Json) → String → Json → List (String × Json)
  | [], k, v => [(k, v)]
  | (k', v') :: fs, k, v =>
      if k' = k then (k, v) :: fs else (k', v') :: setKey fs k v

/-- `target[k] = v` for a JSON value.  The non-object branch is unreachable on
the paths the handlers take it (`express.json` only delivers objects/arrays,
and every call site has already ruled arrays out). -/
def Json.setField : Json → String → Json → Json
  | .obj fs, k, v => .obj (setKey fs k v)
  | j, _, _ => j

/-- `Object.assign(target, src)` on field lists: copy each source entry in order. -/
def objAssign (target src : List (String × Json)) : List (String × Json) :=
  src.foldl (fun acc kv => setKey acc kv.1 kv.2) target

/-- `Object.assign(pokemon, req.body)` where `pokemon` is the found record. -/
def mergeRecord (r : Json) (patch : List (String × Json)) : Json :=
  match r with
  | .obj fs => .obj (objAssign fs patch)
  | j => j

/-- `p.id === k` for an integer `k` (strict equality: only an integer id matches). -/
def idEq (p : Json) (k : Int) : Bool :=
  match p.getField "id" with
  | some (.int m) => m = k
  | _ => false

/-! ## Pagination: `GET /api/pokemons?page=N` (src/index.js:33-60) -/

/-- `parseInt(req.query.page) || 1`.  The input is the result of `parseInt`
(`none` for `NaN`, so a missing or non-numeric `page` is `none`); `0` is falsy
and also coerced to `1`, every other integer passes through. -/
def effPage : Option Int → Int
  | none => 1
  | some k => if k = 0 then 1 else k

/-- `Math.ceil(totalPokemons / limit)` with `limit = 20`, as an integer. -/
def totalPagesOf (n : Nat) : Int :=
  ((n + 19) / 20 : Nat)

/-- Clamp one `Array.prototype.slice` bound: negative indices count from the
end (floored at 0), non-negative ones are capped at the length. -/
def clampIdx (n : Nat) (i : Int) : Nat :=
  if i < 0 then ((n : Int) + i).toNat else min i.toNat n

/-- `l.slice(s, e)` of JavaScript arrays. -/
def jsSlice (l : List Json) (s e : Int) : List Json :=
  (l.take (clampIdx l.length e)).drop (clampIdx l.length s)

/-- The `pagination` object of the list response. -/
structure Pagination where
  currentPage : Int
  totalPages : Int
  totalPokemons : Nat
  itemsPerPage : Nat
  hasNextPage : Bool
  hasPreviousPage : Bool
  deriving DecidableEq, Repr

/-- Response of the list route: 400 with a message, or 200 with data. -/
inductive ListResult where
  | badPage : String → ListResult
  | ok : List Json → Pagination → ListResult

/-- The handler of `GET /api/pokemons` (src/index.js:33-60).  `parsed` is the
`parseInt` of the `page` query parameter (`none` = `NaN`). -/
def listHandler (parsed : Option Int) (pokemons : List Json) : ListResult :=
  let page := effPage parsed
  let startIndex := (page - 1) * 20
  let endIndex := startIndex + 20
  let totalPokemons := pokemons.length
  let totalPages := totalPagesOf totalPokemons
  let paginatedPokemons := jsSlice pokemons startIndex endIndex
  if page > totalPages ∧ totalPages > 0 then
    .badPage ("La page " ++ toString page ++ " n\x27existe pas. Nombre total de pages: "
      ++ toString totalPages)
  else
    .ok paginatedPokemons
      { currentPage := page
        totalPages := totalPages
        totalPokemons := totalPokemons
        itemsPerPage := 20
        hasNextPage := decide (page < totalPages)
        hasPreviousPage := decide (page > 1) }

/-! ## Search: `GET /api/pokemons/search/:name` (src/index.js:63-84) -/

/-- `toLowerCase()` on the character list (ASCII-adequately, per character). -/
def lowerChars : List Char → List Char
  | [] => []
  | c :: cs => c.toLower :: lowerChars cs

/-- `toLowerCase()` of a JavaScript string. -/
def lowerStr (s : String) : String :=
  String.mk (lowerChars s.data)

/-- Whether `q` starts the character list. -/
def startsWithL : List Char → List Char → Bool
  | [], _ => true
  | _ :: _, [] => false
  | a :: as, b :: bs => a == b && startsWithL as bs

/-- Whether `q` occurs as a contiguous run inside `s`. -/
def occursIn (q : List Char) : List Char → Bool
  | [] => startsWithL q []
  | b :: tl => startsWithL q (b :: tl) || occursIn q tl

/-- `s.includes(q)` of JavaScript strings. -/
def jsIncludes (s q : String) : Bool :=
  occursIn q.toList s.toList

/-- `p.name[lang].toLowerCase()` can throw: it yields the string only when
`p.name` is an object holding a string at `lang`; every other shape throws a
`TypeError` (property access on `undefined`/`null`, or `.toLowerCase` of a
non-string). -/
def nameLang (p : Json) (lang : String) : Except Unit String :=
  match p.getField "name" with
  | some (Json.obj fs) =>
      match jlookup fs lang with
      | some (Json.str s) => Except.ok s
      | _ => Except.error ()
  | _ => Except.error ()

/-- The filter predicate of the search route, with JS `||` short-circuit:
later language fields are only touched when no earlier one matched.
`q` is the already-lowercased search string. -/
def searchRecMatch (q : String) (p : Json) : Except Unit Bool := do
  let e ← nameLang p "english"
  if jsIncludes (lowerStr e) q then return true
  else
    let f ← nameLang p "french"
    if jsIncludes (lowerStr f) q then return true
    else
      let j ← nameLang p "japanese"
      if jsIncludes (lowerStr j) q then return true
      else
        let c ← nameLang p "chinese"
        return jsIncludes (lowerStr c) q

/-- `pokemons.filter(...)`: evaluated left to right, a throw aborts the whole
request. -/
def searchFilter (q : String) : List Json → Except Unit (List Json)
  | [] => Except.ok []
  | p :: ps => do
      let b ← searchRecMatch q p
      let rest ← searchFilter q ps
      Except.ok (if b then p :: rest else rest)

/-- Response of the search route: 404 with message and empty results, or 200. -/
inductive SearchResult where
  | notFound : String → List Json → SearchResult
  | found : String → List Json → SearchResult

/-- The handler of `GET /api/pokemons/search/:name` (src/index.js:63-84);
an `Except.error` is a thrown `TypeError`. -/
def searchHandler (nameParam : String) (pokemons : List Json) :
    Except Unit SearchResult := do
  let searchName := lowerStr nameParam
  let results ← searchFilter searchName pokemons
  if results.length = 0 then
    Except.ok (.notFound ("Aucun Pokémon trouvé avec le nom: " ++ nameParam) [])
  else
    Except.ok (.found (toString results.length ++ " Pokémon(s) trouvé(s)") results)

/-! ## Persistence: `writeFileSync(..., JSON.stringify(pokemons, null, 2))` -/

mutual
/-- What a value becomes after `JSON.stringify` and re-`JSON.parse`: the
identity, except that `NaN` serializes as `null`. -/
def persistVal : Json → Json
  | .null => .null
  | .nan => .null
  | .bool b => .bool b
  | .int n => .int n
  | .str s => .str s
  | .arr xs => .arr (persistList xs)
  | .obj fs => .obj (persistFields fs)

def persistList : List Json → List Json
  | [] => []
  | x :: xs => persistVal x :: persistList xs

def persistFields : List (String × Json) → List (String × Json)
  | [] => []
  | (k, v) :: fs => (k, persistVal v) :: persistFields fs
end

/-- The mutable service state: the in-memory `pokemons` array and the backing
file, the latter modelled by the record list its JSON content parses to. -/
structure SState where
  store : List Json
  file : List Json

/-! ## Create: `POST /api/pokemons` (src/index.js:96-114) -/

/-- `!newPokemon.name || !newPokemon.type || !newPokemon.base` negated. -/
def validCreate (body : Json) : Bool :=
  hasTruthy body "name" && hasTruthy body "type" && hasTruthy body "base"

/-- Value of a non-empty all-digit character run, else `none`. -/
def digitsVal (cs : List Char) : Option Nat :=
  if cs = [] then none
  else if cs.all Char.isDigit then
    some (cs.foldl (fun a c => a * 10 + (c.toNat - 48)) 0)
  else none

/-- JS whitespace (the kinds that occur in practice). -/
def isJsWsp (c : Char) : Bool :=
  c = ' ' || c = '\t' || c = '\n' || c = '\r'

/-- Strip leading whitespace from a character list. -/
def dropWspL : List Char → List Char
  | [] => []
  | c :: cs => if isJsWsp c then dropWspL cs else c :: cs

/-- Strip whitespace from both ends. -/
def trimL (cs : List Char) : List Char :=
  (dropWspL ((dropWspL cs).reverse)).reverse

/-- An integer numeral, as `ToNumber` reads a trimmed string (`""` is `0`). -/
def strToInt (s : String) : Option Int :=
  match trimL s.data with
  | [] => some 0
  | '-' :: ds => (digitsVal ds).map (fun n => -(n : Int))
  | '+' :: ds => (digitsVal ds).map (fun n => (n : Int))
  | ds => (digitsVal ds).map (fun n => (n : Int))

/-- `ToNumber` of a JS value, `none` being `NaN`.  Fractional numerals and
array/object coercions are modelled as `NaN`; no theorem below exercises them. -/
def jsToNumber : Json → Option Int
  | .null => some 0
  | .nan => none
  | .bool b => some (if b then 1 else 0)
  | .int n => some n
  | .str s => strToInt s
  | .arr _ => none
  | .obj _ => none

/-- `p.id` coerced by `Math.max` (`undefined` gives `NaN`). -/
def idNum (p : Json) : Option Int :=
  match p.getField "id" with
  | none => none
  | some v => jsToNumber v

/-- `Math.max(...pokemons.map(p => p.id))` on a non-empty store
(`none` = `NaN`: one non-numeric id poisons the maximum). -/
def maxIds : List Json → Option Int
  | [] => none
  | [p] => idNum p
  | p :: ps =>
      match idNum p, maxIds ps with
      | some a, some b => some (max a b)
      | _, _ => none

/-- `pokemons.length > 0 ? Math.max(...pokemons.map(p => p.id)) + 1 : 1`. -/
def newIdVal (pokemons : List Json) : Json :=
  if pokemons.isEmpty then .int 1
  else
    match maxIds pokemons with
    | some m => .int (m + 1)
    | none => .nan

/-- Response of the create route: 400 `Données invalides`, or 201 with the
created record. -/
inductive CreateResult where
  | invalid : CreateResult
  | created : Json → CreateResult

/-- The handler of `POST /api/pokemons` (src/index.js:96-114). -/
def createHandler (body : Json) (st : SState) : CreateResult × SState :=
  if validCreate body then
    let newPokemon := body.setField "id" (newIdVal st.store)
    let store := st.store ++ [newPokemon]
    (.created newPokemon, { store := store, file := persistList store })
  else
    (.invalid, st)

/-! ## Update: `PUT /api/pokemons/:id` (src/index.js:117-131) -/

/-- Response of the update route: 404, or 200 with the merged record. -/
inductive UpdateResult where
  | notFound : UpdateResult
  | ok : Json → UpdateResult

/-- `pokemons.find(p => p.id === k)` followed by the in-place
`Object.assign(pokemon, req.body)`: locate the first record whose id is the
integer `k` and replace it by the merge, returning both. -/
def updateFirstById (k : Int) (patch : List (String × Json)) :
    List Json → Option (Json × List Json)
  | [] => none
  | p :: ps =>
      if idEq p k then
        let m := mergeRecord p patch
        some (m, m :: ps)
      else
        (updateFirstById k patch ps).map (fun r => (r.1, p :: r.2))

/-- The handler of `PUT /api/pokemons/:id` (src/index.js:117-131).  `idArg` is
`parseInt(req.params.id)` (`none` = `NaN`, which `===`-matches nothing); the
patch is the parsed JSON object body. -/
def updateHandler (idArg : Option Int) (patch : List (String × Json))
    (st : SState) : UpdateResult × SState :=
  match idArg with
  | none => (.notFound, st)
  | some k =>
      match updateFirstById k patch st.store with
      | none => (.notFound, st)
      | some (m, store) => (.ok m, { store := store, file := persistList store })

/-! ## Delete: `DELETE /api/pokemons/:id` (src/index.js:134-147) -/

/-- Response of the delete route: 404, or 200 with the wrapper body. -/
inductive DeleteResult where
  | notFound : DeleteResult
  | ok : Json → DeleteResult

/-- `res.json({ message: 'Pokémon supprimé', pokemon: deletedPokemon })`. -/
def deleteBody (deleted : Json) : Json :=
  .obj [("message", .str "Pokémon supprimé"), ("pokemon", deleted)]

/-- `pokemons.findIndex(p => p.id === k)` followed by `splice(index, 1)`:
remove the first record whose id is the integer `k`. -/
def deleteFirstById (k : Int) : List Json → Option (Json × List Json)
  | [] => none
  | p :: ps =>
      if idEq p k then some (p, ps)
      else (deleteFirstById k ps).map (fun r => (r.1, p :: r.2))

/-- The handler of `DELETE /api/pokemons/:id` (src/index.js:134-147). -/
def deleteHandler (idArg : Option Int) (st : SState) : DeleteResult × SState :=
  match idArg with
  | none => (.notFound, st)
  | some k =>
      match deleteFirstById k st.store with
      | none => (.notFound, st)
      | some (p, store) =>
          (.ok (deleteBody p), { store := store, file := persistList store })

/-! ## Fixtures and observers -/

/-- A store of `n` minimal records with ids `1..n`. -/
def mkStore (n : Nat) : List Json :=
  (List.range n).map (fun k => Json.obj [("id", Json.int ((k : Int) + 1))])

/-- Observer: the `currentPage` of a list response (`0` on the 400 branch). -/
def lrCurrentPage : ListResult → Int
  | .badPage _ => 0
  | .ok _ pag => pag.currentPage

/-! ## Pagination lemmas -/

theorem totalPagesOf_eq_ceil (n : Nat) : totalPagesOf n = ⌈(n : ℚ) / 20⌉ := by
  have hA : (20 : ℤ) * (((n + 19) / 20 : ℕ) : ℤ) < (n : ℤ) + 20 := by omega
  have hB : (n : ℤ) ≤ 20 * (((n + 19) / 20 : ℕ) : ℤ) := by omega
  rw [totalPagesOf, eq_comm, Int.ceil_eq_iff]
  have h20 : (0 : ℚ) < 20 := by norm_num
  constructor
  · rw [lt_div_iff₀ h20]
    have : ((20 : ℤ) * (((n + 19) / 20 : ℕ) : ℤ) : ℚ) < ((n : ℤ) : ℚ) + 20 := by
      exact_mod_cast hA
    push_cast at this ⊢
    linarith
  · rw [div_le_iff₀ h20]
    have : ((n : ℤ) : ℚ) ≤ ((20 : ℤ) * (((n + 19) / 20 : ℕ) : ℤ) : ℚ) := by
      exact_mod_cast hB
    push_cast at this ⊢
    linarith

theorem clampIdx_natCast (n s : Nat) : clampIdx n (s : Int) = min s n := by
  simp [clampIdx]

theorem jsSlice_natCast (l : List Json) (s : Nat) :
    jsSlice l (s : Int) ((s : Int) + 20) = (l.drop s).take 20 := by
  have h2 : ((s : Int) + 20) = ((s + 20 : Nat) : Int) := by push_cast; ring
  rw [jsSlice, h2, clampIdx_natCast, clampIdx_natCast, List.drop_take]
  rcases le_or_lt s l.length with hs | hs
  · rw [min_eq_left hs]
    rw [List.take_eq_take]
    simp only [List.length_drop]
    omega
  · rw [min_eq_right (le_of_lt hs)]
    rw [List.drop_length, List.drop_eq_nil_of_le (le_of_lt hs), List.take_nil, List.take_nil]

/-- C1: for every store and every in-range page `p` (`1 ≤ p ≤ totalPages`),
the list route returns the sub-sequence `[(p-1)*20, (p-1)*20+20)` of the store
together with `totalPages = ⌈totalCount/20⌉`, `hasNextPage = (p < totalPages)`
and `hasPreviousPage = (p > 1)`. -/
theorem list_paginates_in_range (store : List Json) (p : Int)
    (h1 : 1 ≤ p) (h2 : p ≤ totalPagesOf store.length) :
    listHandler (some p) store =
      ListResult.ok ((store.drop (((p - 1) * 20).toNat)).take 20)
        { currentPage := p
          totalPages := totalPagesOf store.length
          totalPokemons := store.length
          itemsPerPage := 20
          hasNextPage := decide (p < totalPagesOf store.length)
          hasPreviousPage := decide (p > 1) }
    ∧ totalPagesOf store.length = ⌈(store.length : ℚ) / 20⌉ := by
  refine ⟨?_, totalPagesOf_eq_ceil _⟩
  have hp0 : p ≠ 0 := by omega
  have hpage : effPage (some p) = p := by simp [effPage, hp0]
  have hnot : ¬ (p > totalPagesOf store.length ∧ totalPagesOf store.length > 0) := by
    push_neg
    intro hgt
    omega
  set s : Nat := ((p - 1) * 20).toNat with hs
  have hcast : (p - 1) * 20 = (s : Int) := by omega
  simp only [listHandler, hpage]
  rw [if_neg hnot]
  rw [hcast, jsSlice_natCast]

/-- Witness for C1: the spec's concrete scenario, a store with ids `1..25` at
page 2 (the slice is the records at positions 21-25, `totalPages = 2`,
`hasNextPage = false`, `hasPreviousPage = true`, as evaluation confirms). -/
theorem list_paginates_in_range_witness :
    (1 : Int) ≤ 2 ∧ (2 : Int) ≤ totalPagesOf (mkStore 25).length ∧
    (listHandler (some 2) (mkStore 25) =
      ListResult.ok (((mkStore 25).drop ((((2 : Int) - 1) * 20).toNat)).take 20)
        { currentPage := 2
          totalPages := totalPagesOf (mkStore 25).length
          totalPokemons := (mkStore 25).length
          itemsPerPage := 20
          hasNextPage := decide ((2 : Int) < totalPagesOf (mkStore 25).length)
          hasPreviousPage := decide ((2 : Int) > 1) }
    ∧ totalPagesOf (mkStore 25).length = ⌈((mkStore 25).length : ℚ) / 20⌉) :=
  ⟨by norm_num, by decide, list_paginates_in_range (mkStore 25) 2 (by norm_num) (by decide)⟩

/-- C5: the list route answers 400 exactly when the (coerced) page exceeds
`totalPages` and `totalPages > 0`; on an empty store it never answers 400. -/
theorem list_badpage_iff (parsed : Option Int) (store : List Json) :
    ((∃ msg, listHandler parsed store = ListResult.badPage msg) ↔
      (effPage parsed > totalPagesOf store.length ∧ totalPagesOf store.length > 0))
    ∧ (store = [] → ∀ msg, listHandler parsed store ≠ ListResult.badPage msg) := by
  constructor
  · simp only [listHandler]
    by_cases h : effPage parsed > totalPagesOf store.length ∧ totalPagesOf store.length > 0
    · rw [if_pos h]
      exact ⟨fun _ => h, fun _ => ⟨_, rfl⟩⟩
    · rw [if_neg h]
      constructor
      · rintro ⟨msg, hmsg⟩
        exact ListResult.noConfusion hmsg
      · intro hc
        exact absurd hc h
  · rintro rfl msg
    simp only [listHandler]
    rw [if_neg (by simp [totalPagesOf])]
    exact fun h => ListResult.noConfusion h

/-- Witness for C5: page 3 of a 25-record store (2 pages) is refused. -/
theorem list_badpage_iff_witness :
    ∃ msg, listHandler (some 3) (mkStore 25) = ListResult.badPage msg :=
  (list_badpage_iff (some 3) (mkStore 25)).1.mpr (by decide)

/-- C6 amended: a non-numeric `page` (`parseInt` gives `NaN`) or a `page` of
`0` is coerced to page 1; negative pages are NOT coerced (see the
counterexample `page_negative_not_coerced_cx`). -/
theorem page_nan_or_zero_coerced (store : List Json) :
    listHandler none store = listHandler (some 1) store ∧
    listHandler (some 0) store = listHandler (some 1) store := ⟨rfl, rfl⟩

/-- Counterexample to C6 as stated: `page = -1` is not rejected AND not
coerced to 1 — `(-1 - 1) * 20 = -40` indexes from the end of the array, so on
a 25-record store the response differs from page 1's (5 records and
`currentPage = -1` instead of 20 records and `currentPage = 1`). -/
theorem page_negative_not_coerced_cx :
    listHandler (some (-1)) (mkStore 25) ≠ listHandler (some 1) (mkStore 25) :=
  fun h => absurd (congrArg lrCurrentPage h) (by decide)


/-! ## Search lemmas (C4, C10) -/

/-- Whether a `nameLang` access succeeds. -/
def isOkStr : Except Unit String → Bool
  | .ok _ => true
  | .error _ => false

/-- The record's `name` holds strings at all four of the languages the search
route touches. -/
def fourLangStrings (p : Json) : Bool :=
  isOkStr (nameLang p "english") && isOkStr (nameLang p "french") &&
  isOkStr (nameLang p "japanese") && isOkStr (nameLang p "chinese")

/-- The lowercased language value, `""` when the access would throw. -/
def langLower (p : Json) (lang : String) : String :=
  match nameLang p lang with
  | .ok s => lowerStr s
  | .error _ => ""

/-- Pure four-language match predicate: what the filter computes on a record
whose four language fields are strings. -/
def match4 (q : String) (p : Json) : Bool :=
  jsIncludes (langLower p "english") q || jsIncludes (langLower p "french") q ||
  jsIncludes (langLower p "japanese") q || jsIncludes (langLower p "chinese") q

/-- Modelled from the spec's words, for comparison with the code only:
"Matches any Record whose `name` mapping has *any* language value containing
the query as a substring (case-insensitive)." -/
def specAnyLangContains (q : String) (p : Json) : Bool :=
  match p.getField "name" with
  | some (Json.obj fs) =>
      fs.any (fun kv =>
        match kv.2 with
        | Json.str s => jsIncludes (lowerStr s) (lowerStr q)
        | _ => false)
  | _ => false

@[simp]
theorem okBind {α β : Type} (a : α) (f : α → Except Unit β) :
    (Except.ok a : Except Unit α) >>= f = f a := rfl

@[simp]
theorem errBind {α β : Type} (f : α → Except Unit β) :
    (Except.error () : Except Unit α) >>= f = Except.error () := rfl

theorem isOkStr_exists {x : Except Unit String} (h : isOkStr x = true) :
    ∃ s, x = Except.ok s := by
  cases x with
  | ok s => exact ⟨s, rfl⟩
  | error e => simp [isOkStr] at h

theorem recMatch_of_fourLang {p : Json} (h : fourLangStrings p = true) (q : String) :
    searchRecMatch q p = Except.ok (match4 q p) := by
  simp only [fourLangStrings, Bool.and_eq_true] at h
  obtain ⟨⟨⟨he, hf⟩, hj⟩, hc⟩ := h
  obtain ⟨e, he⟩ := isOkStr_exists he
  obtain ⟨f, hf⟩ := isOkStr_exists hf
  obtain ⟨j, hj⟩ := isOkStr_exists hj
  obtain ⟨c, hc⟩ := isOkStr_exists hc
  simp only [searchRecMatch, match4, langLower, he, hf, hj, hc]
  by_cases h1 : jsIncludes (lowerStr e) q <;>
    by_cases h2 : jsIncludes (lowerStr f) q <;>
      by_cases h3 : jsIncludes (lowerStr j) q <;>
        simp [h1, h2, h3, pure, Except.pure]

theorem searchFilter_of_fourLang {store : List Json}
    (h : ∀ p ∈ store, fourLangStrings p = true) (q : String) :
    searchFilter q store = Except.ok (store.filter (match4 q)) := by
  induction store with
  | nil => rfl
  | cons p ps ih =>
      have hp := h p (List.mem_cons_self p ps)
      have hps := ih (fun r hr => h r (List.mem_cons_of_mem _ hr))
      simp only [searchFilter, recMatch_of_fourLang hp, hps, List.filter_cons, okBind]

theorem searchFilter_error_of_mem {store : List Json} {p : Json} (hp : p ∈ store)
    {q : String} (he : searchRecMatch q p = Except.error ()) :
    searchFilter q store = Except.error () := by
  induction store with
  | nil => cases hp
  | cons a tl ih =>
      rcases List.mem_cons.mp hp with rfl | hmem
      · simp only [searchFilter, he, errBind]
      · simp only [searchFilter]
        cases hrec : searchRecMatch q a with
        | error e => cases e; simp [errBind]
        | ok b => simp only [okBind, ih hmem, errBind]

theorem recMatch_error_of_english {p : Json}
    (h : nameLang p "english" = Except.error ()) (q : String) :
    searchRecMatch q p = Except.error () := by
  simp only [searchRecMatch, h]
  rfl

/-! ## Search fixtures -/

/-- A record whose `name` has all four language strings. -/
def recFourLang : Json := Json.obj [("id", Json.int 1),
  ("name", Json.obj [("english", Json.str "Pikachu"), ("french", Json.str "Pikachou"),
    ("japanese", Json.str "ピカチュウ"), ("chinese", Json.str "皮卡丘")])]

/-- A record whose `name` has the four standard languages plus a fifth one. -/
def recExtraLang : Json := Json.obj [("id", Json.int 1),
  ("name", Json.obj [("english", Json.str "aaa"), ("french", Json.str "aaa"),
    ("japanese", Json.str "aaa"), ("chinese", Json.str "aaa"),
    ("german", Json.str "Zedzed")])]

/-- A record whose `name` lacks `english` entirely. -/
def recNoEnglish : Json := Json.obj [("id", Json.int 1), ("name", Json.obj [])]

/-- A record whose `name` has `english` but lacks the other three languages. -/
def recOnlyEnglish : Json :=
  Json.obj [("id", Json.int 1), ("name", Json.obj [("english", Json.str "Pika")])]

/-- A create payload whose `name` is present (and truthy) but not a mapping of
language strings at all. -/
def badNamePayload : Json := Json.obj [("name", Json.int 5),
  ("type", Json.arr [Json.str "Fire"]), ("base", Json.obj [("HP", Json.int 1)])]

/-- C4 amended: the search route returns exactly those records one of whose
FOUR language values `english`, `french`, `japanese`, `chinese` contains the
query case-insensitively (other keys of the `name` mapping are never
consulted, see `search_extra_language_cx`), in store order; with zero matches
it returns the 404 result carrying a descriptive message and an empty results
array.  Stated on stores whose records hold strings at those four languages
(elsewhere the route can throw, claim C10). -/
theorem search_matches_four_languages (nameParam : String) (store : List Json)
    (h : ∀ p ∈ store, fourLangStrings p = true) :
    searchHandler nameParam store =
      (if (store.filter (match4 (lowerStr nameParam))).length = 0 then
        Except.ok (SearchResult.notFound
          ("Aucun Pokémon trouvé avec le nom: " ++ nameParam) [])
      else
        Except.ok (SearchResult.found
          (toString (store.filter (match4 (lowerStr nameParam))).length
            ++ " Pokémon(s) trouvé(s)")
          (store.filter (match4 (lowerStr nameParam))))) := by
  simp only [searchHandler, searchFilter_of_fourLang h, okBind]

/-- Counterexample to C4 as stated: a record whose `name` mapping has a
language value (`german`) containing the query, which the claim says is
returned — but the code consults only the four standard languages and answers
the 404 branch with empty results. -/
theorem search_extra_language_cx :
    specAnyLangContains "zedzed" recExtraLang = true ∧
    searchHandler "zedzed" [recExtraLang] =
      Except.ok (SearchResult.notFound
        ("Aucun Pokémon trouvé avec le nom: " ++ "zedzed") []) := ⟨by decide, by rfl⟩

/-- Witness for C4 (amended): searching `"IKA"` in a one-record store matches
case-insensitively inside `Pikachu`. -/
theorem search_matches_four_languages_witness :
    (∀ p ∈ [recFourLang], fourLangStrings p = true) ∧
    searchHandler "IKA" [recFourLang] =
      (if (([recFourLang] : List Json).filter (match4 (lowerStr "IKA"))).length = 0 then
        Except.ok (SearchResult.notFound
          ("Aucun Pokémon trouvé avec le nom: " ++ "IKA") [])
      else
        Except.ok (SearchResult.found
          (toString (([recFourLang] : List Json).filter (match4 (lowerStr "IKA"))).length
            ++ " Pokémon(s) trouvé(s)")
          (([recFourLang] : List Json).filter (match4 (lowerStr "IKA"))))) :=
  ⟨by decide, search_matches_four_languages "IKA" [recFourLang] (by decide)⟩

/-- C10 amended: (a) on stores whose records hold strings at all four
languages, the search route never throws; (b) a record whose `name` lacks a
string at `english` makes it throw for EVERY query; but — contrary to the
claim as stated — a record missing only a later language field does not throw
for queries its earlier present values match (`search_short_circuit_cx`);
(c) such stores are reachable: `Create` accepts a payload whose `name` is any
truthy value without checking its language sub-fields, and searching the
resulting store throws for every query. -/
theorem search_totality_conditions (store : List Json) (q : String) :
    ((∀ p ∈ store, fourLangStrings p = true) →
      ∃ r, searchHandler q store = Except.ok r)
    ∧ ((∃ p ∈ store, nameLang p "english" = Except.error ()) →
      searchHandler q store = Except.error ())
    ∧ (createHandler badNamePayload ⟨[], []⟩).1 =
        CreateResult.created (Json.setField badNamePayload "id" (Json.int 1))
    ∧ searchHandler q (createHandler badNamePayload ⟨[], []⟩).2.store =
        Except.error () := by
  refine ⟨?_, ?_, rfl, ?_⟩
  · intro h
    simp only [searchHandler, searchFilter_of_fourLang h, okBind]
    by_cases hl : (store.filter (match4 (lowerStr q))).length = 0
    · exact ⟨_, by rw [if_pos hl]⟩
    · exact ⟨_, by rw [if_neg hl]⟩
  · rintro ⟨p, hp, he⟩
    have hfe := searchFilter_error_of_mem hp (recMatch_error_of_english he (lowerStr q))
    simp only [searchHandler, hfe, errBind]
  · have hst : (createHandler badNamePayload ⟨[], []⟩).2.store =
        [Json.setField badNamePayload "id" (Json.int 1)] := rfl
    rw [hst]
    have hfe := searchFilter_error_of_mem
      (p := Json.setField badNamePayload "id" (Json.int 1))
      (List.mem_singleton.mpr rfl)
      (recMatch_error_of_english
        (p := Json.setField badNamePayload "id" (Json.int 1)) (by rfl) (lowerStr q))
    simp only [searchHandler, hfe, errBind]

/-- Counterexample to C10 as stated: `recOnlyEnglish` lacks three of the four
language fields, yet the search does NOT throw for the query `Pika` — the JS
`||` short-circuits after the english match, so the record is found. -/
theorem search_short_circuit_cx :
    nameLang recOnlyEnglish "french" = Except.error () ∧
    searchHandler "Pika" [recOnlyEnglish] =
      Except.ok (SearchResult.found (toString (1 : Nat) ++ " Pokémon(s) trouvé(s)")
        [recOnlyEnglish]) := ⟨by rfl, by rfl⟩

/-- Witness for C10 (amended): a fully-stringed store searches without
throwing; a store with a record lacking `english` throws. -/
theorem search_totality_conditions_witness :
    (∃ r, searchHandler "pika" [recFourLang] = Except.ok r) ∧
    searchHandler "pika" [recNoEnglish] = Except.error () :=
  ⟨(search_totality_conditions [recFourLang] "pika").1 (by decide),
   (search_totality_conditions [recNoEnglish] "pika").2.1
     ⟨recNoEnglish, List.mem_singleton.mpr rfl, by rfl⟩⟩


/-! ## Create lemmas (C2, C3) -/

/-- The ids of a store all of whose records carry integer `id` fields
(`none` when some record does not). -/
def storeIds : List Json → Option (List Int)
  | [] => some []
  | p :: ps =>
      match p.getField "id", storeIds ps with
      | some (Json.int k), some ks => some (k :: ks)
      | _, _ => none

/-- Maximum of an integer list, shaped like `maxIds`. -/
def intsMax : List Int → Option Int
  | [] => none
  | [i] => some i
  | i :: is => (intsMax is).map (max i)

theorem intsMax_cons_some (i : Int) (is : List Int) : ∃ m, intsMax (i :: is) = some m := by
  induction is generalizing i with
  | nil => exact ⟨i, rfl⟩
  | cons j js ih =>
      obtain ⟨m, hm⟩ := ih j
      refine ⟨max i m, ?_⟩
      rw [show intsMax (i :: j :: js) = (intsMax (j :: js)).map (max i) from rfl, hm]
      rfl

theorem intsMax_is_max : ∀ (l : List Int) (m : Int), intsMax l = some m →
    m ∈ l ∧ ∀ j ∈ l, j ≤ m := by
  intro l
  induction l with
  | nil => intro m hm; cases hm
  | cons i is ih =>
      intro m hm
      cases is with
      | nil =>
          simp only [intsMax] at hm
          cases hm
          constructor
          · exact List.mem_singleton.mpr rfl
          · intro j hj
            rw [List.mem_singleton] at hj
            exact le_of_eq hj
      | cons j js =>
          obtain ⟨m', hm'⟩ := intsMax_cons_some j js
          rw [show intsMax (i :: j :: js) = (intsMax (j :: js)).map (max i) from rfl,
            hm'] at hm
          rw [show (some m').map (max i) = some (max i m') from rfl] at hm
          obtain ⟨hmem, hle⟩ := ih m' hm'
          cases hm
          constructor
          · rcases max_cases i m' with ⟨heq, _⟩ | ⟨heq, _⟩
            · rw [heq]; exact List.mem_cons_self i (j :: js)
            · rw [heq]; exact List.mem_cons_of_mem i hmem
          · intro a ha
            rcases List.mem_cons.mp ha with rfl | ha
            · exact le_max_left _ _
            · exact le_trans (hle a ha) (le_max_right _ _)

theorem maxIds_of_storeIds : ∀ {store : List Json} {ids : List Int},
    storeIds store = some ids → maxIds store = intsMax ids := by
  intro store
  induction store with
  | nil =>
      intro ids h
      simp only [storeIds] at h
      cases h
      rfl
  | cons p ps ih =>
      intro ids h
      simp only [storeIds] at h
      cases hid : p.getField "id" with
      | none => rw [hid] at h; cases h
      | some v =>
          cases v <;> rw [hid] at h <;> try cases h
          case int k =>
          cases hps : storeIds ps with
          | none => rw [hps] at h; cases h
          | some ks =>
              rw [hps] at h
              cases h
              have hmax := ih hps
              cases ps with
              | nil =>
                  simp only [storeIds] at hps
                  cases hps
                  simp [maxIds, intsMax, idNum, hid, jsToNumber]
              | cons q qs =>
                  have hks : ∃ k' ks', ks = k' :: ks' := by
                    simp only [storeIds] at hps
                    cases hq : (q.getField "id") with
                    | none => rw [hq] at hps; cases hps
                    | some w =>
                        cases w <;> rw [hq] at hps <;> try cases hps
                        case int k2 =>
                        cases hqs : storeIds qs with
                        | none => rw [hqs] at hps; cases hps
                        | some ks2 => rw [hqs] at hps; cases hps; exact ⟨k2, ks2, rfl⟩
                  obtain ⟨k', ks', rfl⟩ := hks
                  rw [show maxIds (p :: q :: qs) =
                      (match idNum p, maxIds (q :: qs) with
                        | some a, some b => some (max a b)
                        | _, _ => none) from rfl]
                  rw [show intsMax (k :: k' :: ks') =
                      (intsMax (k' :: ks')).map (max k) from rfl]
                  rw [hmax]
                  obtain ⟨m, hm⟩ := intsMax_cons_some k' ks'
                  rw [hm]
                  simp [idNum, hid, jsToNumber]

theorem newIdVal_of_storeIds {store : List Json} {ids : List Int}
    (h : storeIds store = some ids) :
    (store = [] → newIdVal store = Json.int 1) ∧
    (store ≠ [] → ∃ m, intsMax ids = some m ∧ m ∈ ids ∧ (∀ j ∈ ids, j ≤ m) ∧
      newIdVal store = Json.int (m + 1)) := by
  constructor
  · rintro rfl
    rfl
  · intro hne
    cases store with
    | nil => exact absurd rfl hne
    | cons p ps =>
        have hmax := maxIds_of_storeIds h
        have hids : ∃ k ks, ids = k :: ks := by
          simp only [storeIds] at h
          cases hid : p.getField "id" with
          | none => rw [hid] at h; cases h
          | some v =>
              cases v <;> rw [hid] at h <;> try cases h
              case int k =>
              cases hps : storeIds ps with
              | none => rw [hps] at h; cases h
              | some ks => rw [hps] at h; cases h; exact ⟨k, ks, rfl⟩
        obtain ⟨k, ks, rfl⟩ := hids
        obtain ⟨m, hm⟩ := intsMax_cons_some k ks
        obtain ⟨hmem, hle⟩ := intsMax_is_max _ m hm
        refine ⟨m, hm, hmem, hle, ?_⟩
        rw [newIdVal]
        rw [if_neg (by simp)]
        rw [hmax, hm]


/-! ## Create claim theorems (C2, C3) -/

/-- A well-formed create payload (spec's concrete scenario shape). -/
def okCreatePayload : Json := Json.obj [("name", Json.obj [("english", Json.str "A")]),
  ("type", Json.arr [Json.str "Fire"]), ("base", Json.obj [("HP", Json.int 1)])]

/-- A payload containing `name`, `type`, `base` where `name` is the falsy `""`. -/
def falsyNamePayload : Json := Json.obj [("name", Json.str ""),
  ("type", Json.arr [Json.str "Fire"]), ("base", Json.obj [("HP", Json.int 1)])]

/-- A payload containing `name`, `type`, `base` where `base` is the falsy `0`. -/
def zeroBasePayload : Json := Json.obj [("name", Json.obj [("english", Json.str "A")]),
  ("type", Json.arr [Json.str "Fire"]), ("base", Json.int 0)]

/-- A payload with `name` and `base` but no `type` (spec's testable property). -/
def noTypePayload : Json := Json.obj [("name", Json.obj [("english", Json.str "A")]),
  ("base", Json.obj [("HP", Json.int 1)])]

/-- The 25-record state of the spec's concrete create scenario. -/
def st25 : SState := ⟨mkStore 25, persistList (mkStore 25)⟩

/-- C2 amended: for every payload whose `name`, `type` and `base` are present
AND truthy, create succeeds: the new record is the payload with `id` set to
`newIdVal`, which is `max(existing ids) + 1` (or `1` on an empty store), and
it is appended at the end of the store.  (Presence alone does not suffice,
see `create_falsy_present_cx`.) -/
theorem create_truthy_succeeds (body : Json) (st : SState) (ids : List Int)
    (hv : validCreate body = true) (hids : storeIds st.store = some ids) :
    (createHandler body st).1 =
        CreateResult.created (body.setField "id" (newIdVal st.store))
    ∧ (createHandler body st).2.store =
        st.store ++ [body.setField "id" (newIdVal st.store)]
    ∧ (st.store = [] → newIdVal st.store = Json.int 1)
    ∧ (st.store ≠ [] → ∃ m, intsMax ids = some m ∧ m ∈ ids ∧ (∀ j ∈ ids, j ≤ m)
        ∧ newIdVal st.store = Json.int (m + 1)) := by
  obtain ⟨hemp, hne⟩ := newIdVal_of_storeIds hids
  refine ⟨?_, ?_, hemp, hne⟩
  · simp only [createHandler, if_pos hv]
  · simp only [createHandler, if_pos hv]

/-- Counterexample to C2 as stated: a payload in which `name`, `type` and
`base` are all present, but `name` is the falsy `""` — create does NOT
succeed, it answers 400 and leaves the state unchanged. -/
theorem create_falsy_present_cx :
    (falsyNamePayload.getField "name").isSome = true
    ∧ (falsyNamePayload.getField "type").isSome = true
    ∧ (falsyNamePayload.getField "base").isSome = true
    ∧ createHandler falsyNamePayload st25 = (CreateResult.invalid, st25) :=
  ⟨by decide, by decide, by decide, by rfl⟩

/-- Witness for C2 (amended): the spec's concrete scenario — a store with ids
`1..25` gives the created record id 26. -/
theorem create_truthy_succeeds_witness :
    validCreate okCreatePayload = true
    ∧ storeIds st25.store = some ((List.range 25).map (fun k => (k : Int) + 1))
    ∧ ((createHandler okCreatePayload st25).1 =
        CreateResult.created (okCreatePayload.setField "id" (newIdVal st25.store))
      ∧ (createHandler okCreatePayload st25).2.store =
        st25.store ++ [okCreatePayload.setField "id" (newIdVal st25.store)]
      ∧ (st25.store = [] → newIdVal st25.store = Json.int 1)
      ∧ (st25.store ≠ [] →
        ∃ m, intsMax ((List.range 25).map (fun k => (k : Int) + 1)) = some m
          ∧ m ∈ (List.range 25).map (fun k => (k : Int) + 1)
          ∧ (∀ j ∈ (List.range 25).map (fun k => (k : Int) + 1), j ≤ m)
          ∧ newIdVal st25.store = Json.int (m + 1)))
    ∧ newIdVal st25.store = Json.int 26 :=
  ⟨by decide, by decide,
   create_truthy_succeeds okCreatePayload st25
     ((List.range 25).map (fun k => (k : Int) + 1)) (by decide) (by decide),
   by rfl⟩

/-- C3 amended: create answers 400 (`Données invalides`) exactly when at least
one of `name`, `type`, `base` is absent from the payload OR present with a
falsy value (`null`, `false`, `0`, `""`, `NaN`); and on that failure the
state (store and backing file) is completely unchanged. -/
theorem create_fails_iff_not_truthy (body : Json) (st : SState) :
    ((createHandler body st).1 = CreateResult.invalid ↔
      (hasTruthy body "name" = false ∨ hasTruthy body "type" = false ∨
        hasTruthy body "base" = false))
    ∧ ((createHandler body st).1 = CreateResult.invalid →
        (createHandler body st).2 = st) := by
  cases hn : hasTruthy body "name" <;> cases ht : hasTruthy body "type" <;>
    cases hb : hasTruthy body "base" <;>
      simp [createHandler, validCreate, hn, ht, hb]

/-- Counterexample to C3 as stated ("fails exactly when at least one field is
absent"): a payload in which all three of `name`, `type`, `base` are present
(with `base` the falsy `0`) still fails with 400. -/
theorem create_invalid_despite_present_cx :
    (zeroBasePayload.getField "name").isSome = true
    ∧ (zeroBasePayload.getField "type").isSome = true
    ∧ (zeroBasePayload.getField "base").isSome = true
    ∧ createHandler zeroBasePayload ⟨[], []⟩ = (CreateResult.invalid, ⟨[], []⟩) :=
  ⟨by decide, by decide, by decide, by rfl⟩

/-- Witness for C3 (amended): creating without `type` fails with 400 and the
state is untouched (the spec's testable property). -/
theorem create_fails_iff_not_truthy_witness :
    (createHandler noTypePayload st25).1 = CreateResult.invalid
    ∧ (createHandler noTypePayload st25).2 = st25 :=
  ⟨(create_fails_iff_not_truthy noTypePayload st25).1.mpr
      (Or.inr (Or.inl (by decide))),
   (create_fails_iff_not_truthy noTypePayload st25).2
      ((create_fails_iff_not_truthy noTypePayload st25).1.mpr
        (Or.inr (Or.inl (by decide))))⟩


/-! ## Shallow-merge lemmas (C7) -/

theorem jlookup_setKey_self (fs : List (String × Json)) (k : String) (v : Json) :
    jlookup (setKey fs k v) k = some v := by
  induction fs with
  | nil => simp [setKey, jlookup]
  | cons kv fs ih =>
      obtain ⟨k', v'⟩ := kv
      by_cases h : k' = k
      · subst h
        simp [setKey, jlookup]
      · simp [setKey, jlookup, h, ih]

theorem jlookup_setKey_ne (fs : List (String × Json)) (k key : String) (v : Json)
    (h : key ≠ k) : jlookup (setKey fs k v) key = jlookup fs key := by
  induction fs with
  | nil => simp [setKey, jlookup, Ne.symm h]
  | cons kv fs ih =>
      obtain ⟨k', v'⟩ := kv
      by_cases hk : k' = k
      · subst hk
        simp [setKey, jlookup, Ne.symm h]
      · simp [setKey, jlookup, hk, ih]

theorem jlookup_objAssign_notMem (fs patch : List (String × Json)) (key : String)
    (h : key ∉ patch.map Prod.fst) :
    jlookup (objAssign fs patch) key = jlookup fs key := by
  induction patch generalizing fs with
  | nil => rfl
  | cons kv rest ih =>
      obtain ⟨k, v⟩ := kv
      simp only [List.map_cons, List.mem_cons, not_or] at h
      rw [show objAssign fs ((k, v) :: rest) = objAssign (setKey fs k v) rest from rfl]
      rw [ih (setKey fs k v) h.2, jlookup_setKey_ne _ _ _ _ h.1]

theorem jlookup_objAssign_mem (fs patch : List (String × Json)) (key : String)
    (v : Json) (hnd : (patch.map Prod.fst).Nodup) (hmem : (key, v) ∈ patch) :
    jlookup (objAssign fs patch) key = some v := by
  induction patch generalizing fs with
  | nil => cases hmem
  | cons kv rest ih =>
      obtain ⟨k, w⟩ := kv
      rw [List.map_cons] at hnd
      have hnd' := List.nodup_cons.mp hnd
      rw [show objAssign fs ((k, w) :: rest) = objAssign (setKey fs k w) rest from rfl]
      rcases List.mem_cons.mp hmem with heq | hmem'
      · cases heq
        rw [jlookup_objAssign_notMem _ _ _ hnd'.1, jlookup_setKey_self]
      · exact ih (setKey fs k w) hnd'.2 hmem'

/-- A record with an integer id is an object. -/
theorem idEq_obj {r : Json} {k : Int} (hr : idEq r k = true) :
    ∃ fs, r = Json.obj fs := by
  cases r with
  | obj fs => exact ⟨fs, rfl⟩
  | null => exact absurd hr (by simp [idEq, Json.getField])
  | nan => exact absurd hr (by simp [idEq, Json.getField])
  | bool b => exact absurd hr (by simp [idEq, Json.getField])
  | int n => exact absurd hr (by simp [idEq, Json.getField])
  | str s => exact absurd hr (by simp [idEq, Json.getField])
  | arr xs => exact absurd hr (by simp [idEq, Json.getField])

theorem updateFirstById_split (k : Int) (patch : List (String × Json))
    (pre post : List Json) (r : Json)
    (hpre : ∀ p ∈ pre, idEq p k = false) (hr : idEq r k = true) :
    updateFirstById k patch (pre ++ r :: post) =
      some (mergeRecord r patch, pre ++ mergeRecord r patch :: post) := by
  induction pre with
  | nil => simp [updateFirstById, hr]
  | cons a pre ih =>
      have ha := hpre a (List.mem_cons_self _ _)
      simp [updateFirstById, ha,
        ih (fun p hp => hpre p (List.mem_cons_of_mem _ hp))]

theorem updateFirstById_none (k : Int) (patch : List (String × Json))
    (store : List Json) (h : ∀ p ∈ store, idEq p k = false) :
    updateFirstById k patch store = none := by
  induction store with
  | nil => rfl
  | cons a tl ih =>
      have ha := h a (List.mem_cons_self _ _)
      simp [updateFirstById, ha, ih (fun p hp => h p (List.mem_cons_of_mem _ hp))]

/-- C7: on a store splitting as `pre ++ r :: post` with `r` the first record
whose id is `k`, the update route shallow-merges the patch into `r` in place:
the response is 200 with the merged record, every patch key (including `id`)
now maps to its patch value, every other field of `r` is retained, `pre` and
`post` are untouched, and the merged store is persisted; when no record has
id `k` the route answers 404 and changes nothing. -/
theorem update_merges_patch (pre post : List Json) (r : Json) (k : Int)
    (patch : List (String × Json)) (file0 : List Json)
    (hpre : ∀ p ∈ pre, idEq p k = false) (hr : idEq r k = true) :
    (updateHandler (some k) patch ⟨pre ++ r :: post, file0⟩ =
      (UpdateResult.ok (mergeRecord r patch),
        ⟨pre ++ mergeRecord r patch :: post,
          persistList (pre ++ mergeRecord r patch :: post)⟩))
    ∧ (∀ key v, (patch.map Prod.fst).Nodup → (key, v) ∈ patch →
        (mergeRecord r patch).getField key = some v)
    ∧ (∀ key, key ∉ patch.map Prod.fst →
        (mergeRecord r patch).getField key = r.getField key)
    ∧ (∀ st : SState, (∀ p ∈ st.store, idEq p k = false) →
        updateHandler (some k) patch st = (UpdateResult.notFound, st)) := by
  obtain ⟨fs, rfl⟩ := idEq_obj hr
  refine ⟨?_, ?_, ?_, ?_⟩
  · simp only [updateHandler, updateFirstById_split k patch pre post _ hpre hr]
  · intro key v hnd hmem
    exact jlookup_objAssign_mem fs patch key v hnd hmem
  · intro key hkey
    exact jlookup_objAssign_notMem fs patch key hkey
  · intro st hnone
    simp only [updateHandler, updateFirstById_none k patch st.store hnone]

/-- Witness for C7: patching record 1's `name` (and nothing else) in a
two-record store replaces just that field of just that record. -/
theorem update_merges_patch_witness :
    (∀ p ∈ ([] : List Json), idEq p 1 = false)
    ∧ idEq (Json.obj [("id", Json.int 1), ("name", Json.str "a")]) 1 = true
    ∧ ((updateHandler (some 1) [("name", Json.str "b")]
        ⟨[] ++ (Json.obj [("id", Json.int 1), ("name", Json.str "a")]) ::
          [Json.obj [("id", Json.int 2)]], []⟩ =
      (UpdateResult.ok (mergeRecord
          (Json.obj [("id", Json.int 1), ("name", Json.str "a")])
          [("name", Json.str "b")]),
        ⟨[] ++ (mergeRecord (Json.obj [("id", Json.int 1), ("name", Json.str "a")])
            [("name", Json.str "b")]) :: [Json.obj [("id", Json.int 2)]],
          persistList ([] ++ (mergeRecord
              (Json.obj [("id", Json.int 1), ("name", Json.str "a")])
              [("name", Json.str "b")]) :: [Json.obj [("id", Json.int 2)]])⟩))
      ∧ (∀ key v, (([("name", Json.str "b")].map Prod.fst)).Nodup →
          (key, v) ∈ [("name", Json.str "b")] →
          (mergeRecord (Json.obj [("id", Json.int 1), ("name", Json.str "a")])
            [("name", Json.str "b")]).getField key = some v)
      ∧ (∀ key, key ∉ [("name", Json.str "b")].map Prod.fst →
          (mergeRecord (Json.obj [("id", Json.int 1), ("name", Json.str "a")])
            [("name", Json.str "b")]).getField key =
            (Json.obj [("id", Json.int 1), ("name", Json.str "a")]).getField key)
      ∧ (∀ st : SState, (∀ p ∈ st.store, idEq p 1 = false) →
          updateHandler (some 1) [("name", Json.str "b")] st =
            (UpdateResult.notFound, st))) :=
  ⟨by simp, by decide,
   update_merges_patch [] [Json.obj [("id", Json.int 2)]]
     (Json.obj [("id", Json.int 1), ("name", Json.str "a")]) 1
     [("name", Json.str "b")] [] (by simp) (by decide)⟩


/-! ## Delete (C8) -/

theorem deleteFirstById_split (k : Int) (pre post : List Json) (r : Json)
    (hpre : ∀ p ∈ pre, idEq p k = false) (hr : idEq r k = true) :
    deleteFirstById k (pre ++ r :: post) = some (r, pre ++ post) := by
  induction pre with
  | nil => simp [deleteFirstById, hr]
  | cons a pre ih =>
      have ha := hpre a (List.mem_cons_self _ _)
      simp [deleteFirstById, ha,
        ih (fun p hp => hpre p (List.mem_cons_of_mem _ hp))]

theorem deleteFirstById_none (k : Int) (store : List Json)
    (h : ∀ p ∈ store, idEq p k = false) :
    deleteFirstById k store = none := by
  induction store with
  | nil => rfl
  | cons a tl ih =>
      have ha := h a (List.mem_cons_self _ _)
      simp [deleteFirstById, ha, ih (fun p hp => h p (List.mem_cons_of_mem _ hp))]

/-- C8 amended: when no record has id `k` the delete route answers 404 and
changes nothing; when one does, it removes the FIRST record with matching id,
leaves all other records in their original order, persists, and answers 200 —
but the response body is the wrapper
`{message: 'Pokémon supprimé', pokemon: <removed record>}`, not the removed
record itself (see `delete_body_wrapper_cx`). -/
theorem delete_removes_first_match (pre post : List Json) (r : Json) (k : Int)
    (file0 : List Json)
    (hpre : ∀ p ∈ pre, idEq p k = false) (hr : idEq r k = true) :
    (deleteHandler (some k) ⟨pre ++ r :: post, file0⟩ =
      (DeleteResult.ok (deleteBody r), ⟨pre ++ post, persistList (pre ++ post)⟩))
    ∧ deleteBody r =
        Json.obj [("message", Json.str "Pokémon supprimé"), ("pokemon", r)]
    ∧ (∀ st : SState, (∀ p ∈ st.store, idEq p k = false) →
        deleteHandler (some k) st = (DeleteResult.notFound, st)) := by
  refine ⟨?_, rfl, ?_⟩
  · simp only [deleteHandler, deleteFirstById_split k pre post r hpre hr]
  · intro st hnone
    simp only [deleteHandler, deleteFirstById_none k st.store hnone]

/-- The record used in the delete scenario. -/
def delRec : Json := Json.obj [("id", Json.int 1), ("name", Json.str "a")]

/-- Counterexample to C8 as stated: the 200 response body of a delete is NOT
the removed record — it is an object with a `message` key wrapping the record
under `pokemon`. -/
theorem delete_body_wrapper_cx :
    (deleteHandler (some 1) ⟨[delRec], [delRec]⟩).1 =
      DeleteResult.ok (deleteBody delRec)
    ∧ deleteBody delRec ≠ delRec :=
  ⟨by rfl,
   fun h => absurd (congrArg (fun j => (Json.getField j "message").isSome) h)
     (by decide)⟩

/-- Witness for C8 (amended): deleting id 2 from a three-record store removes
exactly the middle record and keeps the others in order. -/
theorem delete_removes_first_match_witness :
    (∀ p ∈ [Json.obj [("id", Json.int 1)]], idEq p 2 = false)
    ∧ idEq (Json.obj [("id", Json.int 2)]) 2 = true
    ∧ ((deleteHandler (some 2)
        ⟨[Json.obj [("id", Json.int 1)]] ++
          (Json.obj [("id", Json.int 2)]) :: [Json.obj [("id", Json.int 3)]], []⟩ =
      (DeleteResult.ok (deleteBody (Json.obj [("id", Json.int 2)])),
        ⟨[Json.obj [("id", Json.int 1)]] ++ [Json.obj [("id", Json.int 3)]],
          persistList ([Json.obj [("id", Json.int 1)]] ++
            [Json.obj [("id", Json.int 3)]])⟩))
      ∧ deleteBody (Json.obj [("id", Json.int 2)]) =
          Json.obj [("message", Json.str "Pokémon supprimé"),
            ("pokemon", Json.obj [("id", Json.int 2)])]
      ∧ (∀ st : SState, (∀ p ∈ st.store, idEq p 2 = false) →
          deleteHandler (some 2) st = (DeleteResult.notFound, st))) :=
  ⟨by decide, by decide,
   delete_removes_first_match [Json.obj [("id", Json.int 1)]]
     [Json.obj [("id", Json.int 3)]] (Json.obj [("id", Json.int 2)]) 2 []
     (by decide) (by decide)⟩


/-! ## Persistence (C9) -/

/-- C9 amended: after every successful mutation (201 create, 200 update, 200
delete) the backing file holds `persistList` of the new store — i.e.
`JSON.stringify` of the whole store, re-parsed — and therefore equals the
in-memory store whenever the latter survives serialization unchanged (no
`NaN`, which only a create over a non-numeric id produces,
see `persist_nan_mismatch_cx`). -/
theorem mutation_persists_store (body : Json) (idArg : Option Int)
    (patch : List (String × Json)) (st : SState) :
    (∀ rec st', createHandler body st = (CreateResult.created rec, st') →
      st'.file = persistList st'.store
      ∧ (persistList st'.store = st'.store → st'.file = st'.store))
    ∧ (∀ rec st', updateHandler idArg patch st = (UpdateResult.ok rec, st') →
      st'.file = persistList st'.store
      ∧ (persistList st'.store = st'.store → st'.file = st'.store))
    ∧ (∀ b st', deleteHandler idArg st = (DeleteResult.ok b, st') →
      st'.file = persistList st'.store
      ∧ (persistList st'.store = st'.store → st'.file = st'.store)) := by
  refine ⟨?_, ?_, ?_⟩
  · intro rec st' h
    by_cases hv : validCreate body
    · simp only [createHandler, if_pos hv] at h
      cases h
      exact ⟨rfl, fun hp => hp⟩
    · simp only [createHandler, if_neg hv] at h
      exact absurd (congrArg Prod.fst h) (by simp)
  · intro rec st' h
    cases idArg with
    | none =>
        simp only [updateHandler] at h
        exact absurd (congrArg Prod.fst h) (by simp)
    | some k =>
        cases hu : updateFirstById k patch st.store with
        | none =>
            simp only [updateHandler, hu] at h
            exact absurd (congrArg Prod.fst h) (by simp)
        | some pr =>
            obtain ⟨m, store'⟩ := pr
            simp only [updateHandler, hu] at h
            cases h
            exact ⟨rfl, fun hp => hp⟩
  · intro b st' h
    cases idArg with
    | none =>
        simp only [deleteHandler] at h
        exact absurd (congrArg Prod.fst h) (by simp)
    | some k =>
        cases hd : deleteFirstById k st.store with
        | none =>
            simp only [deleteHandler, hd] at h
            exact absurd (congrArg Prod.fst h) (by simp)
        | some pr =>
            obtain ⟨p, store'⟩ := pr
            simp only [deleteHandler, hd] at h
            cases h
            exact ⟨rfl, fun hp => hp⟩

/-- A spec-shaped record with id 1 (all four languages present). -/
def persistCxRec0 : Json := Json.obj [("id", Json.int 1),
  ("name", Json.obj [("english", Json.str "Bulbasaur"),
    ("french", Json.str "Bulbizarre"), ("japanese", Json.str "フシギダネ"),
    ("chinese", Json.str "妙蛙种子")]),
  ("type", Json.arr [Json.str "Grass"]), ("base", Json.obj [("HP", Json.int 45)])]

/-- A valid synced one-record state. -/
def persistCxSt0 : SState := ⟨[persistCxRec0], [persistCxRec0]⟩

/-- The state after the (successful) update `PUT /api/pokemons/1` with body
`{id: "one"}`. -/
def persistCxSt1 : SState :=
  (updateHandler (some 1) [("id", Json.str "one")] persistCxSt0).2

/-- Observer: whether the last record of a list has `NaN` as its `id`. -/
def lastIdNan (l : List Json) : Bool :=
  match l.getLast? with
  | some p =>
      match p.getField "id" with
      | some Json.nan => true
      | _ => false
  | none => false

/-- Counterexample to C9 as stated: starting from a valid synced store,
`Update(1, {id: "one"})` succeeds (the id becomes the string `"one"`), and a
subsequent valid `Create` also succeeds (201) — but `Math.max` coerces the
id `"one"` to `NaN`, so the created record's id is `NaN` in memory while
`JSON.stringify` writes `null` to the file: the re-parsed file content
differs from the in-memory store after this successful mutation. -/
theorem persist_nan_mismatch_cx :
    (updateHandler (some 1) [("id", Json.str "one")] persistCxSt0).1 =
      UpdateResult.ok (mergeRecord persistCxRec0 [("id", Json.str "one")])
    ∧ (createHandler okCreatePayload persistCxSt1).1 =
      CreateResult.created (okCreatePayload.setField "id" Json.nan)
    ∧ lastIdNan (createHandler okCreatePayload persistCxSt1).2.store = true
    ∧ lastIdNan (createHandler okCreatePayload persistCxSt1).2.file = false
    ∧ (createHandler okCreatePayload persistCxSt1).2.file ≠
      (createHandler okCreatePayload persistCxSt1).2.store :=
  ⟨by rfl, by rfl, by rfl, by rfl,
   fun h => absurd (congrArg lastIdNan h) (by decide)⟩

/-- Witness for C9 (amended): on the 25-record integer-id store, a create, an
update and a delete each leave the file equal to `persistList` of the store
(and hence to the store itself, whose serialization is the identity). -/
theorem mutation_persists_store_witness :
    ((createHandler okCreatePayload st25).2.file =
        persistList (createHandler okCreatePayload st25).2.store
      ∧ (persistList (createHandler okCreatePayload st25).2.store =
          (createHandler okCreatePayload st25).2.store →
        (createHandler okCreatePayload st25).2.file =
          (createHandler okCreatePayload st25).2.store))
    ∧ ((updateHandler (some 1) [("name", Json.str "b")] st25).2.file =
        persistList (updateHandler (some 1) [("name", Json.str "b")] st25).2.store)
    ∧ ((deleteHandler (some 1) st25).2.file =
        persistList (deleteHandler (some 1) st25).2.store) :=
  ⟨(mutation_persists_store okCreatePayload (some 1) [("name", Json.str "b")]
      st25).1
    (okCreatePayload.setField "id" (newIdVal st25.store))
    (createHandler okCreatePayload st25).2 (by rfl),
   ((mutation_persists_store okCreatePayload (some 1) [("name", Json.str "b")]
      st25).2.1
    (mergeRecord (Json.obj [("id", Json.int 1)]) [("name", Json.str "b")])
    (updateHandler (some 1) [("name", Json.str "b")] st25).2 (by rfl)).1,
   ((mutation_persists_store okCreatePayload (some 1) [("name", Json.str "b")]
      st25).2.2
    (deleteBody (Json.obj [("id", Json.int 1)]))
    (deleteHandler (some 1) st25).2 (by rfl)).1⟩

end PokemonApi
